import Mathlib

/-!
Verification development for the scribeAI clinical-intake app.

The source is a React frontend.  The parts embedded here are:
* the JS-object operations used for form state (object spread update/merge,
  property lookup with the `|| empty-string` default, `Object.keys`);
* `MedicalForm.jsx`: `getInitialState`, `FIXED_FIELDS`, `handleTranscription`,
  `fillForm`, `resetForm` (together with the effect that mirrors the fixed
  fields into the `fixedFields` storage entry), `getFormData`;
* `MicButton` (second half of `MedicalForm.jsx`): the recording state machine
  (`startRecording`, `stopRecording`, `handleMicClick`) and `transcribeAudio`;
* `DetailsPage` (`src/unnamed/part_000`): `handleApiResponse`,
  `handleSubmitRecord`, `handleExportToCsv` and the localStorage record store.

JS objects with string keys and string values are embedded as insertion-ordered
association lists.  Real JS objects never carry duplicate keys; where a proof
needs that fact it appears as an explicit `Nodup` hypothesis.
-/

namespace ScribeAI

/-- A JS object with string keys and string values, in insertion order. -/
abbrev Obj := List (String × String)

/-- Embeds `Object.keys`, in insertion order. -/
def keys (m : Obj) : List String := m.map Prod.fst

/-- Property lookup `record[k] || two-quote-empty`: the value at the first
(and in a real JS object, only) occurrence of `k`, or the empty string when
the key is absent (an empty stored value also reads back empty, as in the
source). -/
def lookupField : Obj → String → String
  | [], _ => ""
  | p :: rest, k => if p.1 == k then p.2 else lookupField rest k

/-- The object spread `\x7b...prev, [k]: v\x7d`: overwrite `k` in place when
present, append `(k, v)` at the end otherwise. -/
def setKey : Obj → String → String → Obj
  | [], k, v => [(k, v)]
  | p :: rest, k, v =>
    if p.1 == k then (k, v) :: rest else p :: setKey rest k v

/-- The object spread `\x7b...prev, ...upd\x7d`: fold `setKey` over the keys of
`upd` in insertion order. -/
def mergeObj (m : Obj) (upd : Obj) : Obj :=
  upd.foldl (fun acc p => setKey acc p.1 p.2) m

/-! ### MedicalForm.jsx : form schema and field binding -/

/-- The 41 field names of `getInitialState`, in the insertion order of the
source object literal. -/
def allFields : List String :=
  ["organised_by", "department", "event_date", "event_place", "event_district",
   "patient_name", "patient_age", "patient_contact", "patient_education",
   "gender", "family_monthly_income",
   "chief_complaint", "diabetes", "hypertension", "thyroid", "cardio",
   "respiratory", "bleeding",
   "past_medical_history_others", "past_dental_visit_details",
   "smoking", "alcohol", "tobacco", "personal_habits_others",
   "clinical_decayed", "clinical_missing", "clinical_filled", "clinical_pain",
   "clinical_fractured_teeth", "clinical_mobility", "clinical_examination_others",
   "calculus", "stains", "fluorosis", "malocclusion", "gingivitis",
   "periodontitis", "oral_mucosal_lesion", "teeth_cleaning_method",
   "doctors_name", "treatment_plan"]

/-- Embeds `getInitialState()`: every field present, bound to the empty string. -/
def getInitialState : Obj := allFields.map (fun k => (k, ""))

/-- Embeds `FIXED_FIELDS`: the persistent event-metadata fields. -/
def FIXED_FIELDS : List String :=
  ["organised_by", "department", "event_date", "event_place", "event_district"]

/-- Embeds `handleTranscription(fieldId, text)` (also the shape of `handleChange`):
`setFormData(prev => (\x7b ...prev, [fieldId]: text \x7d))`. -/
def handleTranscription (form : Obj) (fieldId text : String) : Obj :=
  setKey form fieldId text

/-- Embeds `fillForm(apiData)`: `setFormData(prev => (\x7b ...prev, ...apiData \x7d))`. -/
def fillForm (form : Obj) (apiData : Obj) : Obj :=
  mergeObj form apiData

/-- The save effect (MedicalForm lines 26-32): the `fixedFields` storage entry
always holds the `FIXED_FIELDS` projection of the current form. -/
def fixedSubset (form : Obj) : Obj :=
  FIXED_FIELDS.map (fun k => (k, lookupField form k))

/-- Embeds `resetForm()`: `setFormData(\x7b ...getInitialState(), ...saved \x7d)` where
`saved` is the `fixedFields` entry, kept in sync with the live form by the
save effect, so it is `fixedSubset form`. -/
def resetForm (form : Obj) : Obj :=
  mergeObj getInitialState (fixedSubset form)

/-! ### Status channel -/

/-- Status colors used by `setStatus` / `onStatusChange`: `blue` is
informational, `green` success, `red` error. -/
inductive Color where
  | blue
  | green
  | red
deriving DecidableEq, Repr

/-- One status value `\x7b message, color \x7d`. -/
structure Status where
  message : String
  color : Color
deriving DecidableEq, Repr

/-! ### MicButton : per-field capture and transcription -/

/-- The mutable capture state of one recording context: the `isRecording`
flag, whether a `MediaRecorder` exists and is in its recording state, the
buffered chunks, and a counter of how many chunk buffers have been created
(each `audioChunksRef.current = []` inside `startRecording` creates one). -/
structure CaptureState where
  isRecording : Bool
  recorderActive : Bool
  chunks : List String
  buffersCreated : Nat
deriving DecidableEq, Repr

/-- Embeds `startRecording` on the granted-microphone path (MicButton lines 126-150;
the same statements appear in `DetailsPage.startRecording`, part_000 lines
76-94): unconditionally install a new recorder, create a fresh empty chunk
buffer, and set `isRecording`.  There is no state check. -/
def startRecording (s : CaptureState) : CaptureState :=
  { isRecording := true
    recorderActive := true
    chunks := []
    buffersCreated := s.buffersCreated + 1 }

/-- Embeds `stopRecording`: only acts when a recorder exists in its recording state;
it stops the device and clears `isRecording`, leaving the buffered chunks for
the stop handler to consume. -/
def stopRecording (s : CaptureState) : CaptureState :=
  if s.recorderActive then
    { s with isRecording := false, recorderActive := false }
  else s

/-- Embeds `handleMicClick`: a click while `isRecording` stops; otherwise it starts. -/
def handleMicClick (s : CaptureState) : CaptureState :=
  if s.isRecording then stopRecording s else startRecording s

/-- The possible outcomes of the `fetch` to the transcription endpoint, as
`transcribeAudio` distinguishes them: a transport error (rejected fetch), a
non-2xx response, or a JSON body with an optional `error` field and a `text`
field. -/
inductive TranscribeResponse where
  | netError (msg : String)
  | httpFail
  | body (error : Option String) (text : String)
deriving DecidableEq, Repr

/-- Embeds `transcribeAudio` (MicButton lines 162-187), acting on the form through
`onTranscription = handleTranscription`: a rejected fetch reports its message;
`!response.ok` throws `Server error during transcription`; a body with
`result.error` throws that error; each is caught and reported as a red status
with the form untouched.  Only the success path writes the targeted field. -/
def transcribeAudio (form : Obj) (fieldId : String) (r : TranscribeResponse) :
    Obj × Status :=
  match r with
  | .netError msg => (form, ⟨"Error: " ++ msg, Color.red⟩)
  | .httpFail => (form, ⟨"Error: Server error during transcription", Color.red⟩)
  | .body (some e) _ => (form, ⟨"Error: " ++ e, Color.red⟩)
  | .body none text =>
    (handleTranscription form fieldId text, ⟨"Transcription completed.", Color.green⟩)

/-- A response is a failure unless it is a 2xx body without an `error` field. -/
def isFailureResponse : TranscribeResponse → Bool
  | .body none _ => false
  | _ => true

/-! ### DetailsPage : extraction response handling -/

/-- The argument of `handleApiResponse`: either a body with `error` set, or a
body with the `extracted_data` mapping. -/
inductive ApiResult where
  | err (msg : String)
  | ok (extracted_data : Obj)
deriving DecidableEq, Repr

/-- Truthiness filter of `Object.values(data).filter(Boolean)` on string
values: the non-empty ones. -/
def truthyCount (data : Obj) : Nat :=
  (data.filter (fun p => p.2 != "")).length

/-- Embeds `handleApiResponse` (part_000 lines 38-50): an `error` field is reported
as a red status with the form untouched; otherwise `fillForm` merges
`extracted_data` into the form and the green status reports the count of
truthy extracted values. -/
def handleApiResponse (form : Obj) (result : ApiResult) : Obj × Status :=
  match result with
  | .err msg => (form, ⟨"Error: " ++ msg, Color.red⟩)
  | .ok data =>
    (fillForm form data,
     ⟨"Analysis complete. " ++ toString (truthyCount data) ++
        " fields were filled. Please review.", Color.green⟩)

/-! ### DetailsPage : record store, submit, export -/

/-- The `dentalCampRecords` localStorage entry as `JSON.parse` sees it:
absent (`getItem` returns null, defaulted to the empty-array literal),
unparseable, or a well-formed array of records. -/
inductive StoredValue where
  | absent
  | corrupt
  | records (rs : List Obj)
deriving DecidableEq, Repr

/-- The read attempt `JSON.parse(localStorage.getItem(key) || two-quote-brackets)`:
`none` models the parse throwing. -/
def parseRecords : StoredValue → Option (List Obj)
  | .absent => some []
  | .corrupt => none
  | .records rs => some rs

/-- The state `handleSubmitRecord` touches: the live form (read via
`getFormData`, which returns a copy) and the persisted record entry. -/
structure AppState where
  form : Obj
  store : StoredValue
deriving DecidableEq, Repr

/-- Outcome of one submit: the new app state and the last status written. -/
structure SubmitOutcome where
  state : AppState
  status : Status
deriving DecidableEq, Repr

/-- Embeds `Object.values(currentFormData).every(val => val === two-quote-empty)`. -/
def isFormEmpty (form : Obj) : Bool :=
  form.all (fun p => p.2 == "")

/-- Embeds `handleSubmitRecord` (part_000 lines 126-165).  An empty form is reported
as a blue status and nothing changes.  Otherwise the stored records are read
(a corrupt entry degrades to the empty list), the form snapshot is appended,
and the result written back; on write success `handleResetForm` runs, so the
final form is `resetForm` of the snapshot and the final status is the reset
message (it overwrites the green submit message).  A failed write leaves form
and store untouched and reports a red status. -/
def handleSubmitRecord (s : AppState) (writeOk : Bool) : SubmitOutcome :=
  let currentFormData := s.form
  if isFormEmpty currentFormData then
    ⟨s, ⟨"Form is empty, nothing to submit.", Color.blue⟩⟩
  else
    let allRecords := (parseRecords s.store).getD []
    let newRecords := allRecords ++ [currentFormData]
    if writeOk then
      ⟨⟨resetForm currentFormData, StoredValue.records newRecords⟩,
       ⟨"Form cleared. Ready for next entry.", Color.blue⟩⟩
    else
      ⟨s, ⟨"Error saving to local record cache.", Color.red⟩⟩

/-- A later edit of the live form (`handleChange` / `handleTranscription`):
it only touches the form component. -/
def liveEdit (s : AppState) (k v : String) : AppState :=
  { s with form := setKey s.form k v }

/-- JS `Array.join(sep)`. -/
def joinStrings (sep : String) : List String → String
  | [] => ""
  | [a] => a
  | a :: b :: rest => a ++ sep ++ joinStrings sep (b :: rest)

/-- JS `stringValue.includes(c)` for a single character, over the character
sequence of the string. -/
def containsChar (s : String) (c : Char) : Bool :=
  s.data.contains c

/-- JS `stringValue.replace(slash-quote-slash-g, two double quotes)`: every
double-quote character is doubled. -/
def doubleQuotes (s : String) : String :=
  String.mk (s.data.foldr (fun c acc => if c = '"' then '"' :: '"' :: acc else c :: acc) [])

/-- The field sanitizer of `handleExportToCsv` (part_000 lines 191-198): quote
and double internal quotes exactly when the value contains a comma, a newline
or a double quote. -/
def csvQuote (s : String) : String :=
  if containsChar s ',' || containsChar s '\n' || containsChar s '"' then
    "\"" ++ doubleQuotes s ++ "\""
  else s

/-- One data row: each header key looked up in the record (empty string when
absent), sanitized, joined by commas. -/
def csvRow (headers : List String) (record : Obj) : String :=
  joinStrings "," (headers.map (fun h => csvQuote (lookupField record h)))

/-- The CSV text `headerRow + newline + dataRows` built by `handleExportToCsv`
(lines 187-204) for a non-empty record list: headers are the keys of the
first record; every record (the first included) yields one data row. -/
def exportCsv (allRecords : List Obj) : String :=
  match allRecords with
  | [] => ""
  | first :: rest =>
    joinStrings "," (keys first) ++ "\n" ++
      joinStrings "\n" ((first :: rest).map (fun r => csvRow (keys first) r))

/-- Embeds `handleExportToCsv` (part_000 lines 170-216): a corrupt entry aborts with
a red status and no download; an empty sequence reports blue and no download;
otherwise the CSV text is produced for download and a green status reports
the record count. -/
def handleExportToCsv (store : StoredValue) : Status × Option String :=
  match parseRecords store with
  | none => (⟨"Error reading local cache.", Color.red⟩, none)
  | some allRecords =>
    if allRecords.length = 0 then
      (⟨"No records saved to export.", Color.blue⟩, none)
    else
      (⟨"Successfully exported " ++ toString allRecords.length ++ " records.",
        Color.green⟩, some (exportCsv allRecords))

/-! ### Reference CSV serialization, written from the spec -/

/-- Modelled from the spec (section 4.6): a value is wrapped in double quotes
with internal double quotes doubled if and only if it contains a comma, a
newline, or a double quote. -/
def specQuote (s : String) : String :=
  if containsChar s ',' || containsChar s '\n' || containsChar s '"' then
    "\"" ++ doubleQuotes s ++ "\""
  else s

/-- Modelled from the spec (section 4.6): header row = ordered keys of the
first record; one row per record mapping each header key to the value of that record
value (empty string if absent) with the quoting rule applied; all rows joined
by newline into one document. -/
def referenceCsv (records : List Obj) : String :=
  match records with
  | [] => ""
  | first :: _ =>
    let headers := first.map Prod.fst
    joinStrings "\n"
      (joinStrings "," headers ::
        records.map (fun r =>
          joinStrings "," (headers.map (fun h => specQuote (lookupField r h)))))

/-! ### Concrete data used by witnesses and counterexamples -/

/-- The two-record example from the spec CSV round-trip property. -/
def csvExample : List Obj :=
  [[("a", "1,2"), ("b", "he said \"hi\"")],
   [("a", "3"), ("b", "line1\nline2")]]

/-- A form with one persistent and one transient field filled. -/
def demoForm : Obj :=
  setKey (setKey getInitialState "department" "Dental") "patient_name" "Jo"

/-- A capture context that is mid-recording with one buffered chunk. -/
def recState : CaptureState :=
  { isRecording := true, recorderActive := true, chunks := ["chunk0"],
    buffersCreated := 1 }

/-! ### Helper lemmas about the object model and the form -/

theorem keys_nil : keys [] = [] := rfl

theorem keys_cons (p : String × String) (rest : Obj) :
    keys (p :: rest) = p.1 :: keys rest := rfl

theorem keys_setKey_mem (m : Obj) (k v : String) (h : k ∈ keys m) :
    keys (setKey m k v) = keys m := by
  induction m with
  | nil => simp [keys_nil] at h
  | cons p rest ih =>
    by_cases hpk : p.1 = k
    · simp [setKey, hpk, keys_cons]
    · have hk : k ∈ keys rest := by
        rcases List.mem_cons.mp (keys_cons p rest ▸ h) with h1 | h1
        · exact absurd h1.symm hpk
        · exact h1
      simp only [setKey, beq_iff_eq, hpk, if_false, keys_cons, ih hk]

theorem keys_setKey_not_mem (m : Obj) (k v : String) (h : k ∉ keys m) :
    keys (setKey m k v) = keys m ++ [k] := by
  induction m with
  | nil => simp [setKey, keys_cons, keys_nil]
  | cons p rest ih =>
    have hpk : ¬ p.1 = k := fun he => h (keys_cons p rest ▸ List.mem_cons_self p.1 (keys rest) |> (he ▸ ·))
    have hk : k ∉ keys rest := fun hin => h (keys_cons p rest ▸ List.mem_cons_of_mem p.1 hin)
    simp only [setKey, beq_iff_eq, hpk, if_false, keys_cons, ih hk,
      List.cons_append]

theorem lookup_setKey_self (m : Obj) (k v : String) :
    lookupField (setKey m k v) k = v := by
  induction m with
  | nil => simp [setKey, lookupField]
  | cons p rest ih =>
    by_cases hpk : p.1 = k
    · simp [setKey, hpk, lookupField]
    · simpa [setKey, lookupField, hpk] using ih

theorem lookup_setKey_ne (m : Obj) (k v q : String) (h : q ≠ k) :
    lookupField (setKey m k v) q = lookupField m q := by
  have hkq : ¬ k = q := fun he => h he.symm
  induction m with
  | nil => simp [setKey, lookupField, hkq]
  | cons p rest ih =>
    by_cases hpk : p.1 = k
    · have hpq : ¬ p.1 = q := fun he => h (he ▸ hpk)
      simp [setKey, hpk, lookupField, hkq, hpq]
    · by_cases hpq : p.1 = q
      · simp [setKey, hpk, lookupField, hpq, h]
      · simpa [setKey, lookupField, hpk, hpq] using ih

theorem lookup_merge_not_mem (upd : Obj) (m : Obj) (k : String)
    (h : k ∉ keys upd) :
    lookupField (mergeObj m upd) k = lookupField m k := by
  induction upd generalizing m with
  | nil => rfl
  | cons q rest ih =>
    have hk : k ∉ keys rest := fun hin => h (keys_cons q rest ▸ List.mem_cons_of_mem q.1 hin)
    have hq : k ≠ q.1 := fun he => h (keys_cons q rest ▸ (he ▸ List.mem_cons_self q.1 (keys rest)))
    calc lookupField (mergeObj (setKey m q.1 q.2) rest) k
        = lookupField (setKey m q.1 q.2) k := ih (setKey m q.1 q.2) hk
      _ = lookupField m k := lookup_setKey_ne m q.1 q.2 k hq

theorem lookup_merge_mem (upd : Obj) (m : Obj) (k : String)
    (hnd : (keys upd).Nodup) (h : k ∈ keys upd) :
    lookupField (mergeObj m upd) k = lookupField upd k := by
  induction upd generalizing m with
  | nil => simp [keys_nil] at h
  | cons q rest ih =>
    have hnd1 : q.1 ∉ keys rest := (List.nodup_cons.mp (keys_cons q rest ▸ hnd)).1
    have hnd2 : (keys rest).Nodup := (List.nodup_cons.mp (keys_cons q rest ▸ hnd)).2
    by_cases hq : k = q.1
    · have h1 : lookupField (mergeObj (setKey m q.1 q.2) rest) k
          = lookupField (setKey m q.1 q.2) k := by
        refine lookup_merge_not_mem rest (setKey m q.1 q.2) k ?_
        exact hq ▸ hnd1
      have h2 : lookupField (setKey m q.1 q.2) k = q.2 := hq ▸ lookup_setKey_self m q.1 q.2
      have h3 : lookupField (q :: rest) k = q.2 := by
        simp [lookupField, hq.symm]
      exact (h1.trans h2).trans h3.symm
    · have hk : k ∈ keys rest := by
        rcases List.mem_cons.mp (keys_cons q rest ▸ h) with h1 | h1
        · exact absurd h1 hq
        · exact h1
      have hqk : ¬ q.1 = k := fun he => hq he.symm
      have h3 : lookupField (q :: rest) k = lookupField rest k := by
        simp [lookupField, hqk]
      calc lookupField (mergeObj (setKey m q.1 q.2) rest) k
          = lookupField rest k := ih (setKey m q.1 q.2) hnd2 hk
        _ = lookupField (q :: rest) k := h3.symm

theorem keys_merge_subset (upd : Obj) (m : Obj)
    (h : ∀ k, k ∈ keys upd → k ∈ keys m) :
    keys (mergeObj m upd) = keys m := by
  induction upd generalizing m with
  | nil => rfl
  | cons q rest ih =>
    have hq : q.1 ∈ keys m := h q.1 (keys_cons q rest ▸ List.mem_cons_self q.1 (keys rest))
    have hkeys : keys (setKey m q.1 q.2) = keys m := keys_setKey_mem m q.1 q.2 hq
    calc keys (mergeObj (setKey m q.1 q.2) rest)
        = keys (setKey m q.1 q.2) := by
          refine ih (setKey m q.1 q.2) ?_
          intro k hk
          rw [hkeys]
          exact h k (keys_cons q rest ▸ List.mem_cons_of_mem q.1 hk)
      _ = keys m := hkeys

theorem lookup_map_graph (l : List String) (g : String → String) (k : String)
    (h : k ∈ l) :
    lookupField (l.map (fun x => (x, g x))) k = g k := by
  induction l with
  | nil => simp at h
  | cons a rest ih =>
    by_cases hak : a = k
    · simp [lookupField, hak]
    · have hk : k ∈ rest := by
        rcases List.mem_cons.mp h with h1 | h1
        · exact absurd h1.symm hak
        · exact h1
      simpa [lookupField, hak] using ih hk

theorem lookup_initial (k : String) : lookupField getInitialState k = "" := by
  have : ∀ l : List String, lookupField (l.map (fun x => (x, ""))) k = "" := by
    intro l
    induction l with
    | nil => rfl
    | cons a rest ih =>
      by_cases hak : a = k
      · simp [lookupField, hak]
      · simpa [lookupField, hak] using ih
  exact this allFields

theorem keys_graph (l : List String) (g : String → String) :
    keys (l.map (fun x => (x, g x))) = l := by
  induction l with
  | nil => rfl
  | cons a rest ih => simp only [List.map_cons, keys_cons, ih]

theorem keys_fixedSubset (form : Obj) : keys (fixedSubset form) = FIXED_FIELDS :=
  keys_graph FIXED_FIELDS (lookupField form)

theorem resetForm_persistent (form : Obj) (p : String) (hp : p ∈ FIXED_FIELDS) :
    lookupField (resetForm form) p = lookupField form p := by
  have hnd : (keys (fixedSubset form)).Nodup := by
    rw [keys_fixedSubset]
    decide
  have hmem : p ∈ keys (fixedSubset form) := by
    rw [keys_fixedSubset]
    exact hp
  calc lookupField (resetForm form) p
      = lookupField (fixedSubset form) p :=
        lookup_merge_mem (fixedSubset form) getInitialState p hnd hmem
    _ = lookupField form p := lookup_map_graph FIXED_FIELDS (lookupField form) p hp

theorem resetForm_transient (form : Obj) (t : String) (ht : t ∉ FIXED_FIELDS) :
    lookupField (resetForm form) t = "" := by
  have hmem : t ∉ keys (fixedSubset form) := by
    rw [keys_fixedSubset]
    exact ht
  calc lookupField (resetForm form) t
      = lookupField getInitialState t :=
        lookup_merge_not_mem (fixedSubset form) getInitialState t hmem
    _ = "" := lookup_initial t

/-! ### Claim theorems -/

/-- C1: for every non-empty record sequence, the CSV text built by
`handleExportToCsv` equals the reference serialization written from the spec
(header = keys of the first record, one row per record with empty-string
default for absent keys and the quote-iff-comma-newline-quote rule, rows
joined by newlines). -/
theorem exportCsv_matches_reference (rs : List Obj) (h : rs ≠ []) :
    exportCsv rs = referenceCsv rs := by
  match rs with
  | first :: rest => rfl

/-- Witness for C1: at the two-record example from the spec the exporter
output is exactly the expected document. -/
theorem exportCsv_matches_reference_witness :
    csvExample ≠ [] ∧
    exportCsv csvExample =
      "a,b\n\"1,2\",\"he said \"\"hi\"\"\"\n3,\"line1\nline2\"" :=
  ⟨by decide,
   (exportCsv_matches_reference csvExample (by decide)).trans (by decide)⟩

/-- C2: on a FormState that carries exactly the fixed field schema, both
field-binding updates preserve the key set: `handleTranscription` (applyOne)
for any field name of the schema, and `fillForm` (applyMany) for any partial
mapping over schema field names. -/
theorem fieldBinding_preserves_keys (m : Obj) (h : keys m = allFields) :
    (∀ f v, f ∈ allFields → keys (handleTranscription m f v) = keys m) ∧
    (∀ upd, (∀ k, k ∈ keys upd → k ∈ allFields) →
        keys (fillForm m upd) = keys m) := by
  constructor
  · intro f v hf
    exact keys_setKey_mem m f v (h ▸ hf)
  · intro upd hupd
    exact keys_merge_subset upd m (fun k hk => h ▸ hupd k hk)

/-- Witness for C2 at the initial state with a single-field write and a
one-key extraction merge. -/
theorem fieldBinding_preserves_keys_witness :
    keys (handleTranscription getInitialState "patient_name" "Jo")
        = keys getInitialState ∧
    keys (fillForm getInitialState [("chief_complaint", "pain")])
        = keys getInitialState :=
  ⟨(fieldBinding_preserves_keys getInitialState (by decide)).1
      "patient_name" "Jo" (by decide),
   (fieldBinding_preserves_keys getInitialState (by decide)).2
      [("chief_complaint", "pain")] (by decide)⟩

/-- C3 counterexample: `startRecording` invoked on a context that is already
recording is not rejected — it creates a new chunk buffer and discards the
buffered chunks. -/
theorem startRecording_overlap_not_rejected :
    recState.isRecording = true ∧
    ¬ ((startRecording recState).buffersCreated = recState.buffersCreated ∧
       (startRecording recState).chunks = recState.chunks) := by decide

/-- C3 amended: the code has no defensive guard inside `startRecording`;
serialization comes from the click interface.  While the context is
recording, `handleMicClick` invokes `stopRecording` rather than
`startRecording`, so through the click path no new chunk buffer is created
and the buffered chunks are kept. -/
theorem handleMicClick_serializes (s : CaptureState)
    (h : s.isRecording = true) :
    handleMicClick s = stopRecording s ∧
    (handleMicClick s).buffersCreated = s.buffersCreated ∧
    (handleMicClick s).chunks = s.chunks := by
  refine ⟨by simp [handleMicClick, h], ?_, ?_⟩ <;>
    by_cases hr : s.recorderActive <;>
      simp [handleMicClick, h, stopRecording, hr]

/-- Witness for C3 amended at the concrete mid-recording context. -/
theorem handleMicClick_serializes_witness :
    recState.isRecording = true ∧
    (handleMicClick recState = stopRecording recState ∧
     (handleMicClick recState).buffersCreated = recState.buffersCreated ∧
     (handleMicClick recState).chunks = recState.chunks) :=
  ⟨by decide, handleMicClick_serializes recState (by decide)⟩

/-- C4: every failing per-field transcription attempt (transport failure,
non-2xx response, or a result-level error field) reports a red status and
leaves the form completely unchanged; in particular the targeted field keeps
its previous value. -/
theorem transcribe_failure_leaves_form (form : Obj) (fieldId : String)
    (r : TranscribeResponse) (h : isFailureResponse r = true) :
    (transcribeAudio form fieldId r).1 = form ∧
    (transcribeAudio form fieldId r).2.color = Color.red ∧
    lookupField (transcribeAudio form fieldId r).1 fieldId
        = lookupField form fieldId := by
  cases r with
  | netError msg => exact ⟨rfl, rfl, rfl⟩
  | httpFail => exact ⟨rfl, rfl, rfl⟩
  | body e t =>
    cases e with
    | some e2 => exact ⟨rfl, rfl, rfl⟩
    | none => simp [isFailureResponse] at h

/-- Witness for C4 at a non-2xx response against the demo form. -/
theorem transcribe_failure_leaves_form_witness :
    isFailureResponse TranscribeResponse.httpFail = true ∧
    ((transcribeAudio demoForm "chief_complaint" TranscribeResponse.httpFail).1
        = demoForm ∧
     (transcribeAudio demoForm "chief_complaint" TranscribeResponse.httpFail).2.color
        = Color.red ∧
     lookupField
        (transcribeAudio demoForm "chief_complaint" TranscribeResponse.httpFail).1
        "chief_complaint" = lookupField demoForm "chief_complaint") :=
  ⟨by decide,
   transcribe_failure_leaves_form demoForm "chief_complaint"
     TranscribeResponse.httpFail (by decide)⟩

/-- C5: a successful extraction merges every provided key into the form
(each such field now reads the extracted value), leaves every other field at
its prior value, and reports a green status whose message carries the count
of non-empty extracted values. -/
theorem handleApiResponse_success_merges (form data : Obj)
    (hnd : (keys data).Nodup) :
    (∀ k, k ∈ keys data →
        lookupField (handleApiResponse form (ApiResult.ok data)).1 k
          = lookupField data k) ∧
    (∀ k, k ∉ keys data →
        lookupField (handleApiResponse form (ApiResult.ok data)).1 k
          = lookupField form k) ∧
    (handleApiResponse form (ApiResult.ok data)).2 =
      ⟨"Analysis complete. " ++
         toString ((data.filter (fun p => decide (p.2 ≠ ""))).length) ++
         " fields were filled. Please review.", Color.green⟩ := by
  refine ⟨?_, ?_, ?_⟩
  · intro k hk
    exact lookup_merge_mem data form k hnd hk
  · intro k hk
    exact lookup_merge_not_mem data form k hk
  · have hfilter : data.filter (fun p => p.2 != "")
        = data.filter (fun p => decide (p.2 ≠ "")) := by
      apply List.filter_congr
      intro p _
      by_cases hp : p.2 = "" <;> simp [hp]
    simp [handleApiResponse, truthyCount, hfilter]

/-- Witness for C5: a two-field extraction (one value empty) against the
initial state fills the provided keys, keeps another field, and reports
count 1. -/
theorem handleApiResponse_success_merges_witness :
    (keys [("patient_name", "Jo"), ("gender", "")]).Nodup ∧
    lookupField
        (handleApiResponse getInitialState
          (ApiResult.ok [("patient_name", "Jo"), ("gender", "")])).1
        "patient_name" = "Jo" ∧
    lookupField
        (handleApiResponse getInitialState
          (ApiResult.ok [("patient_name", "Jo"), ("gender", "")])).1
        "doctors_name" = lookupField getInitialState "doctors_name" ∧
    (handleApiResponse getInitialState
        (ApiResult.ok [("patient_name", "Jo"), ("gender", "")])).2.message
      = "Analysis complete. 1 fields were filled. Please review." := by
  have h := handleApiResponse_success_merges getInitialState
    [("patient_name", "Jo"), ("gender", "")] (by decide)
  refine ⟨by decide, ?_, ?_, ?_⟩
  · exact (h.1 "patient_name" (by decide)).trans (by decide)
  · exact h.2.1 "doctors_name" (by decide)
  · rw [h.2.2]
    rfl

/-- C6: submitting a form whose every value is the empty string changes
nothing — the app state (form and persisted store, hence the stored sequence
and its length) is returned as it was, and the refusal is reported only as a
status value. -/
theorem submit_empty_no_change (s : AppState) (w : Bool)
    (h : isFormEmpty s.form = true) :
    handleSubmitRecord s w =
      ⟨s, ⟨"Form is empty, nothing to submit.", Color.blue⟩⟩ ∧
    (parseRecords (handleSubmitRecord s w).state.store).getD []
      = (parseRecords s.store).getD [] := by
  constructor
  · simp [handleSubmitRecord, h]
  · simp [handleSubmitRecord, h]

/-- Witness for C6 at the all-empty initial form over a one-record store. -/
theorem submit_empty_no_change_witness :
    isFormEmpty getInitialState = true ∧
    (handleSubmitRecord ⟨getInitialState, StoredValue.records [demoForm]⟩ true =
        ⟨⟨getInitialState, StoredValue.records [demoForm]⟩,
         ⟨"Form is empty, nothing to submit.", Color.blue⟩⟩ ∧
     (parseRecords (handleSubmitRecord
          ⟨getInitialState, StoredValue.records [demoForm]⟩ true).state.store).getD []
        = (parseRecords (StoredValue.records [demoForm])).getD []) :=
  ⟨by decide,
   submit_empty_no_change ⟨getInitialState, StoredValue.records [demoForm]⟩
     true (by decide)⟩

/-- C7: a successful submit of a non-empty form appends exactly the submitted
snapshot: the stored sequence becomes the old one plus that snapshot, its
length grows by exactly 1, its last record equals the form as submitted, and
later edits of the live form do not touch the stored sequence. -/
theorem submit_nonempty_appends (s : AppState)
    (h : isFormEmpty s.form = false) :
    parseRecords (handleSubmitRecord s true).state.store
      = some ((parseRecords s.store).getD [] ++ [s.form]) ∧
    ((parseRecords (handleSubmitRecord s true).state.store).getD []).length
      = ((parseRecords s.store).getD []).length + 1 ∧
    ((parseRecords (handleSubmitRecord s true).state.store).getD []).getLast?
      = some s.form ∧
    (∀ k v, (liveEdit (handleSubmitRecord s true).state k v).store
      = (handleSubmitRecord s true).state.store) := by
  have hstore : (handleSubmitRecord s true).state.store
      = StoredValue.records ((parseRecords s.store).getD [] ++ [s.form]) := by
    simp [handleSubmitRecord, h]
  refine ⟨by rw [hstore]; rfl, ?_, ?_, fun k v => rfl⟩
  · rw [hstore]
    simp [parseRecords]
  · rw [hstore]
    simp [parseRecords]

/-- Witness for C7: submitting the demo form over an empty store yields a
one-record store holding exactly the demo form, untouched by a later edit. -/
theorem submit_nonempty_appends_witness :
    isFormEmpty demoForm = false ∧
    (parseRecords (handleSubmitRecord ⟨demoForm, StoredValue.absent⟩ true).state.store
        = some ((parseRecords StoredValue.absent).getD [] ++ [demoForm]) ∧
     ((parseRecords (handleSubmitRecord ⟨demoForm, StoredValue.absent⟩
          true).state.store).getD []).length
        = ((parseRecords StoredValue.absent).getD []).length + 1 ∧
     ((parseRecords (handleSubmitRecord ⟨demoForm, StoredValue.absent⟩
          true).state.store).getD []).getLast? = some demoForm ∧
     (∀ k v, (liveEdit (handleSubmitRecord ⟨demoForm, StoredValue.absent⟩
          true).state k v).store
        = (handleSubmitRecord ⟨demoForm, StoredValue.absent⟩ true).state.store)) :=
  ⟨by decide, submit_nonempty_appends ⟨demoForm, StoredValue.absent⟩ (by decide)⟩

/-- C8: after `resetForm` (which re-merges the saved persistent subset onto
the initial state) every persistent field reads the value it had immediately
before the reset and every transient field of the schema reads the empty
string. -/
theorem resetForm_spec (form : Obj) :
    (∀ p, p ∈ FIXED_FIELDS →
        lookupField (resetForm form) p = lookupField form p) ∧
    (∀ t, t ∈ allFields → t ∉ FIXED_FIELDS →
        lookupField (resetForm form) t = "") :=
  ⟨fun p hp => resetForm_persistent form p hp,
   fun t _ ht => resetForm_transient form t ht⟩

/-- Witness for C8 on the demo form: the persistent department survives and
the transient patient name clears. -/
theorem resetForm_spec_witness :
    lookupField (resetForm demoForm) "department"
        = lookupField demoForm "department" ∧
    lookupField (resetForm demoForm) "patient_name" = "" :=
  ⟨(resetForm_spec demoForm).1 "department" (by decide),
   (resetForm_spec demoForm).2 "patient_name" (by decide) (by decide)⟩

/-- C9 counterexample: the export path does not treat a corrupt store entry
as an empty sequence — exporting a corrupt entry and exporting an empty
sequence produce observably different outcomes (red read error versus blue
nothing-to-export). -/
theorem export_corrupt_differs_from_empty :
    handleExportToCsv StoredValue.corrupt
      ≠ handleExportToCsv (StoredValue.records []) ∧
    handleExportToCsv StoredValue.corrupt
      = (⟨"Error reading local cache.", Color.red⟩, none) := by decide

/-- C9 amended: a corrupt entry degrades differently per reader.  The submit
path treats it as an empty sequence (its outcome over a corrupt store equals
its outcome over an explicitly empty store); the export path aborts with a
red status and no download.  Neither propagates a fatal error. -/
theorem persistence_read_degradation (s : AppState)
    (hc : s.store = StoredValue.corrupt)
    (hne : isFormEmpty s.form = false) :
    handleSubmitRecord s true
      = handleSubmitRecord ⟨s.form, StoredValue.records []⟩ true ∧
    handleExportToCsv s.store
      = (⟨"Error reading local cache.", Color.red⟩, none) := by
  constructor
  · simp [handleSubmitRecord, hne, hc, parseRecords]
  · rw [hc]
    rfl

/-- Witness for C9 amended at the demo form over a corrupt store. -/
theorem persistence_read_degradation_witness :
    (⟨demoForm, StoredValue.corrupt⟩ : AppState).store = StoredValue.corrupt ∧
    isFormEmpty demoForm = false ∧
    (handleSubmitRecord ⟨demoForm, StoredValue.corrupt⟩ true
        = handleSubmitRecord ⟨demoForm, StoredValue.records []⟩ true ∧
     handleExportToCsv (⟨demoForm, StoredValue.corrupt⟩ : AppState).store
        = (⟨"Error reading local cache.", Color.red⟩, none)) :=
  ⟨rfl, by decide,
   persistence_read_degradation ⟨demoForm, StoredValue.corrupt⟩ rfl (by decide)⟩

/-- C10: a successful submission resets the working form as part of the
submit operation itself: afterwards the live form is exactly the reset of the
submitted form, so every transient schema field reads empty and every
persistent field keeps its pre-submit value. -/
theorem submit_resets_form (s : AppState) (h : isFormEmpty s.form = false) :
    (handleSubmitRecord s true).state.form = resetForm s.form ∧
    (∀ p, p ∈ FIXED_FIELDS →
        lookupField (handleSubmitRecord s true).state.form p
          = lookupField s.form p) ∧
    (∀ t, t ∈ allFields → t ∉ FIXED_FIELDS →
        lookupField (handleSubmitRecord s true).state.form t = "") := by
  have hform : (handleSubmitRecord s true).state.form = resetForm s.form := by
    simp [handleSubmitRecord, h]
  exact ⟨hform,
    fun p hp => hform ▸ resetForm_persistent s.form p hp,
    fun t _ ht => hform ▸ resetForm_transient s.form t ht⟩

/-- Witness for C10: submitting the demo form clears the transient patient
name and keeps the persistent department. -/
theorem submit_resets_form_witness :
    isFormEmpty demoForm = false ∧
    ((handleSubmitRecord ⟨demoForm, StoredValue.absent⟩ true).state.form
        = resetForm demoForm ∧
     lookupField (handleSubmitRecord ⟨demoForm, StoredValue.absent⟩
          true).state.form "department" = lookupField demoForm "department" ∧
     lookupField (handleSubmitRecord ⟨demoForm, StoredValue.absent⟩
          true).state.form "patient_name" = "") :=
  ⟨by decide,
   have h := submit_resets_form ⟨demoForm, StoredValue.absent⟩ (by decide)
   ⟨h.1, h.2.1 "department" (by decide),
    h.2.2 "patient_name" (by decide) (by decide)⟩⟩

end ScribeAI
